import Mathlib

/-!
Shallow embedding of the `drainer-registry` Anchor program
(`src/packages/anchor/programs/drainer-registry/src`), covering the
`DrainerReport` account state and its three transitions:

* `DrainerReport.init`       — embeds `DrainerReport::initialize`
  (`state/drainer_report.rs`; the Lean name differs only because
  the source spelling is reserved here),
* `DrainerReport.add_report` — embeds `DrainerReport::add_report`,
* `DrainerReport.update_ai_metadata` — embeds
  `DrainerReport::update_ai_metadata`,

together with the create-or-update dispatch from the `report_drainer`
handler and the category decoding from the `update_ai_metadata`
instruction handler.

Machine integers are modelled as `Nat` with explicit bounds
(`checked_add` is an option-valued bounded addition, exactly as
`u32::checked_add` / `u64::checked_add` behave on in-range operands).
Rust `String`s are modelled as lists of Unicode scalar values, with an
explicit UTF-8 byte-width function so that `String::len()` (bytes) and
`str::chars()` (scalar values) are distinguished, as they are in the
source.  Fallible code returns the mutated state paired with an optional
error, mirroring a Rust `&mut self` method returning `Result<()>`: an
early `?` return leaves mutations made before the failing check in
place, which is what the caller of the Rust method observes.
-/

set_option linter.unusedVariables false

/-- A Solana public key (an opaque 32-byte identifier). Only copied and
compared by the program, so it is modelled abstractly. -/
structure Pubkey where
  bytes : Nat
deriving DecidableEq, Repr

/-- Rust `Pubkey::default()`: the all-zero key, used by `initialize` as the
empty-slot sentinel in `recent_reporters`. -/
def Pubkey.default : Pubkey := ⟨0⟩

/-- The clock sysvar; the program reads only the `unix_timestamp` field
(an `i64` count of seconds). -/
structure Clock where
  unix_timestamp : Int
deriving DecidableEq, Repr

/-- Largest value of a Rust `u32`. -/
def U32_MAX : Nat := 4294967295

/-- Largest value of a Rust `u64`. -/
def U64_MAX : Nat := 18446744073709551615

/-- `u32::checked_add` on in-range operands: `some` of the sum when it fits
in 32 bits, `none` on overflow. -/
def checked_add_u32 (a b : Nat) : Option Nat :=
  if a + b ≤ U32_MAX then some (a + b) else none

/-- `u64::checked_add` on in-range operands: `some` of the sum when it fits
in 64 bits, `none` on overflow. -/
def checked_add_u64 (a b : Nat) : Option Nat :=
  if a + b ≤ U64_MAX then some (a + b) else none

/-- A Rust `String`, modelled as its sequence of Unicode scalar values
(exactly what `str::chars()` yields); each scalar value is a codepoint. -/
abbrev RustString := List Nat

/-- UTF-8 byte width of one Unicode scalar value (1 to 4 bytes). -/
def utf8Width (c : Nat) : Nat :=
  if c < 128 then 1 else if c < 2048 then 2 else if c < 65536 then 3 else 4

/-- Rust `String::len()`: the UTF-8 byte length of the string (not the
number of characters). -/
def strByteLen (s : RustString) : Nat := (s.map utf8Width).sum

/-- The `AttackCategory` enum from `state/drainer_report.rs`
(discriminants 0..4 and 255 for `Unknown`). -/
inductive AttackCategory
  | Phishing
  | FakeAirdrop
  | SocialEngineering
  | MaliciousApproval
  | SetAuthority
  | Unknown
deriving DecidableEq, Repr

/-- The `DrainerRegistryError` enum from `errors.rs`. -/
inductive DrainerRegistryError
  | InsufficientFunds
  | InvalidDrainerAddress
  | ReportCountOverflow
  | AmountOverflow
  | CannotReportSelf
  | CannotReportSystemProgram
deriving DecidableEq, Repr

/-- The `DrainerReport` account state from `state/drainer_report.rs`.
Field-for-field translation; integer widths are recorded per field. -/
structure DrainerReport where
  drainer_address : Pubkey
  report_count : Nat            -- u32
  first_seen : Int              -- i64
  last_seen : Int               -- i64
  total_sol_reported : Nat      -- u64 (lamports)
  recent_reporters : Pubkey × Pubkey    -- [Pubkey; 2]
  attack_category : AttackCategory
  attack_methods : List Nat     -- Vec<u8>
  ai_summary : RustString
  key_domains : List RustString
  ai_confidence : Nat           -- u8
deriving DecidableEq, Repr

/-- `DrainerReport::LEN`: the allocated account size, discriminator
included, exactly as written in the source. -/
def DrainerReport.LEN : Nat := 8 + 32 + 4 + 8 + 8 + 8 + 64 + 1 + 14 + 504 + 504 + 1

/-- Embeds `DrainerReport::initialize` (the Lean name differs because the
source spelling is reserved here): sets every field of the record from
the first report, classification fields to their defaults. -/
def DrainerReport.init (self : DrainerReport) (drainer_address reporter : Pubkey)
    (amount_stolen : Option Nat) (clock : Clock) : DrainerReport :=
  { self with
    drainer_address := drainer_address
    report_count := 1
    first_seen := clock.unix_timestamp
    last_seen := clock.unix_timestamp
    total_sol_reported := amount_stolen.getD 0
    recent_reporters := (reporter, Pubkey.default)
    attack_category := AttackCategory.Unknown
    attack_methods := []
    ai_summary := []
    key_domains := []
    ai_confidence := 0 }

/-- Embeds `DrainerReport::add_report`.  Statement order follows the
source: the report-count `checked_add` with its early error return, then
the `last_seen` assignment, then the conditional amount `checked_add`
with its early error return, then the reporter-ring shift.  The returned
record carries every mutation made before an early return, as the Rust
`&mut self` method does. -/
def DrainerReport.add_report (self : DrainerReport) (reporter : Pubkey)
    (amount_stolen : Option Nat) (clock : Clock) :
    DrainerReport × Option DrainerRegistryError :=
  match checked_add_u32 self.report_count 1 with
  | none => (self, some DrainerRegistryError.ReportCountOverflow)
  | some new_count =>
    let self := { self with report_count := new_count, last_seen := clock.unix_timestamp }
    match amount_stolen with
    | some amount =>
      match checked_add_u64 self.total_sol_reported amount with
      | none => (self, some DrainerRegistryError.AmountOverflow)
      | some new_total =>
        let self := { self with total_sol_reported := new_total }
        ({ self with recent_reporters := (reporter, self.recent_reporters.1) }, none)
    | none =>
      ({ self with recent_reporters := (reporter, self.recent_reporters.1) }, none)

/-- Embeds `DrainerReport::update_ai_metadata`: size-checks in the source
compare `String::len()` (bytes) against the limits and truncate with
`chars().take(..)` (scalar values); methods and domains are bounded with
`take`.  The source returns `Ok(())` unconditionally, so the embedding is
a total function. -/
def DrainerReport.update_ai_metadata (self : DrainerReport) (category : AttackCategory)
    (methods : List Nat) (summary : RustString) (domains : List RustString)
    (confidence : Nat) : DrainerReport :=
  let summary_truncated := if strByteLen summary > 500 then summary.take 500 else summary
  let methods_truncated := methods.take 10
  let domains_truncated :=
    (domains.take 5).map (fun d => if strByteLen d > 100 then d.take 100 else d)
  { self with
    attack_category := category
    attack_methods := methods_truncated
    ai_summary := summary_truncated
    key_domains := domains_truncated
    ai_confidence := min confidence 100 }

/-- The integer-to-enum mapping from the `update_ai_metadata` instruction
handler (`instructions/update_ai_metadata.rs`): codes 0..4 decode to the
named categories, everything else to `Unknown`. -/
def decodeAttackCategory (category : Nat) : AttackCategory :=
  match category with
  | 0 => AttackCategory.Phishing
  | 1 => AttackCategory.FakeAirdrop
  | 2 => AttackCategory.SocialEngineering
  | 3 => AttackCategory.MaliciousApproval
  | 4 => AttackCategory.SetAuthority
  | _ => AttackCategory.Unknown

/-- The `update_ai_metadata` instruction handler body: decode the category
code, then apply `update_ai_metadata` to the loaded record. -/
def updateAiMetadataHandler (rec : DrainerReport) (category : Nat) (methods : List Nat)
    (summary : RustString) (domains : List RustString) (confidence : Nat) : DrainerReport :=
  rec.update_ai_metadata (decodeAttackCategory category) methods summary domains confidence

/-- One report submission: the already-authenticated reporter identity,
the optional claimed stolen amount (a `u64`), and the clock reading the
call observes. -/
structure ReportInput where
  reporter : Pubkey
  amount_stolen : Option Nat
  clock : Clock
deriving DecidableEq, Repr

/-- A freshly allocated account as the `report_drainer` handler first sees
it: Anchor zero-fills new account data, which deserializes to zeroes and
empty collections (enum tag 0 is `Phishing`; `report_count == 0` is the
signal the handler dispatches on, and `initialize` overwrites every
field before any of them is otherwise observable). -/
def zeroedAccount : DrainerReport :=
  { drainer_address := ⟨0⟩
    report_count := 0
    first_seen := 0
    last_seen := 0
    total_sol_reported := 0
    recent_reporters := (⟨0⟩, ⟨0⟩)
    attack_category := AttackCategory.Phishing
    attack_methods := []
    ai_summary := []
    key_domains := []
    ai_confidence := 0 }

/-- The create-or-update dispatch of the `report_drainer` handler
(`lib.rs` / `instructions/report_drainer.rs`): a record with
`report_count == 0` is initialized, any other record is updated via
`add_report`. -/
def submit_report (rec : DrainerReport) (drainer_address : Pubkey) (inp : ReportInput) :
    DrainerReport × Option DrainerRegistryError :=
  if rec.report_count = 0 then
    (rec.init drainer_address inp.reporter inp.amount_stolen inp.clock, none)
  else
    rec.add_report inp.reporter inp.amount_stolen inp.clock

/-- Runs a sequence of report submissions against one record, requiring
every submission to be accepted: the result is `none` as soon as any
submission is rejected. -/
def submitAll (rec : DrainerReport) (addr : Pubkey) : List ReportInput → Option DrainerReport
  | [] => some rec
  | inp :: rest =>
    match submit_report rec addr inp with
    | (rec2, none) => submitAll rec2 addr rest
    | (_, some _) => none

/-- An operation on one record: either a report submission or a privileged
classification-metadata update (with the handler's raw category code). -/
inductive Operation
  | report (inp : ReportInput)
  | updateMeta (category : Nat) (methods : List Nat) (summary : RustString)
      (domains : List RustString) (confidence : Nat)

/-- Applies one operation to a record. Classification updates always
succeed (the source returns `Ok(())` unconditionally). -/
def applyOp (rec : DrainerReport) (addr : Pubkey) :
    Operation → DrainerReport × Option DrainerRegistryError
  | Operation.report inp => submit_report rec addr inp
  | Operation.updateMeta category methods summary domains confidence =>
    (updateAiMetadataHandler rec category methods summary domains confidence, none)

/-- Runs a sequence of operations against one record, requiring every
operation to be accepted. -/
def runOps (rec : DrainerReport) (addr : Pubkey) : List Operation → Option DrainerReport
  | [] => some rec
  | op :: rest =>
    match applyOp rec addr op with
    | (rec2, none) => runOps rec2 addr rest
    | (_, some _) => none

/-- The clock readings of the report operations in a sequence, in order
(classification updates read no clock). -/
def reportTimestamps (ops : List Operation) : List Int :=
  ops.filterMap fun op =>
    match op with
    | Operation.report inp => some inp.clock.unix_timestamp
    | Operation.updateMeta _ _ _ _ _ => none

/-- The `recent_reporters` array viewed as a list, reflecting that the
source field is a fixed two-element array. -/
def recentReportersList (rec : DrainerReport) : List Pubkey :=
  [rec.recent_reporters.1, rec.recent_reporters.2]

/-- Characterization of the reporter ring written from the specification:
given the submission identities in reverse submission order
(most recent first), the ring holds the first two of them, with the
sentinel empty identity padding unused slots. -/
def ringSpec (revReporters : List Pubkey) : Pubkey × Pubkey :=
  (revReporters.headD Pubkey.default, (revReporters.drop 1).headD Pubkey.default)

/-- Borsh serialized size of a `Vec<u8>`: a 4-byte length followed by the
elements, per the Borsh format AnchorSerialize derives for this type. -/
def borshVecU8Size (v : List Nat) : Nat := 4 + v.length

/-- Borsh serialized size of a `String`: a 4-byte length followed by the
UTF-8 bytes. -/
def borshStringSize (s : RustString) : Nat := 4 + strByteLen s

/-- Borsh serialized size of a `Vec<String>`: a 4-byte outer length
followed by each length-prefixed string. -/
def borshVecStringSize (v : List RustString) : Nat := 4 + (v.map borshStringSize).sum

/-- Borsh serialized size of the `DrainerReport` payload (discriminator
excluded): fixed-width scalars and arrays, length-prefixed collections,
per the Borsh format AnchorSerialize derives for this account type. -/
def serializedSize (r : DrainerReport) : Nat :=
  32 + 4 + 8 + 8 + 8 + 64 + 1
    + borshVecU8Size r.attack_methods
    + borshStringSize r.ai_summary
    + borshVecStringSize r.key_domains
    + 1

/-! ### Helper lemmas -/

/-- Every Unicode scalar value occupies at least one UTF-8 byte. -/
theorem one_le_utf8Width (c : Nat) : 1 ≤ utf8Width c := by
  unfold utf8Width
  split_ifs <;> omega

/-- A string never has more characters than UTF-8 bytes. -/
theorem length_le_strByteLen (s : RustString) : s.length ≤ strByteLen s := by
  induction s with
  | nil => simp [strByteLen]
  | cons c t ih =>
    have := one_le_utf8Width c
    simp only [strByteLen, List.map_cons, List.sum_cons, List.length_cons] at *
    omega

/-- The byte-length-guarded truncation of `update_ai_metadata` stores, on
every input, exactly the first `n` characters: when the byte length is
within the bound the character count is too, so `take` is the identity. -/
theorem byte_guarded_take (s : RustString) (n : Nat) :
    (if strByteLen s > n then s.take n else s) = s.take n := by
  split_ifs with h
  · rfl
  · exact (List.take_of_length_le (le_trans (length_le_strByteLen s) (by omega))).symm

/-- Field-level characterization of a successful `add_report`: the count
is incremented, `last_seen` takes the clock reading, the present amount
(or zero) is added to the accumulator, the reporter ring shifts, and
everything else is untouched. -/
theorem add_report_none_fields (rec : DrainerReport) (r : Pubkey) (amt : Option Nat) (c : Clock)
    (h : (rec.add_report r amt c).2 = none) :
    (rec.add_report r amt c).1.report_count = rec.report_count + 1
    ∧ (rec.add_report r amt c).1.last_seen = c.unix_timestamp
    ∧ (rec.add_report r amt c).1.first_seen = rec.first_seen
    ∧ (rec.add_report r amt c).1.total_sol_reported = rec.total_sol_reported + amt.getD 0
    ∧ (rec.add_report r amt c).1.recent_reporters = (r, rec.recent_reporters.1)
    ∧ (rec.add_report r amt c).1.drainer_address = rec.drainer_address := by
  unfold DrainerReport.add_report checked_add_u32 checked_add_u64 at *
  by_cases h1 : rec.report_count + 1 ≤ U32_MAX
  · simp only [if_pos h1] at *
    cases amt with
    | none => simp
    | some a =>
      by_cases h2 : rec.total_sol_reported + a ≤ U64_MAX
      · simp only [if_pos h2] at *
        simp
      · simp only [if_neg h2] at h
        exact absurd h (by simp)
  · simp only [if_neg h1] at h
    exact absurd h (by simp)

/-! ### Claim theorems -/

set_option maxRecDepth 40000

/-- C2 (code_bug): the serialized record payload is not a fixed 1,148
bytes.  The allocated size constant is 1,156 (8-byte discriminator plus a
1,148-byte payload budget), but the Borsh payload is content-dependent: a
freshly initialized record serializes to 138 bytes, a record whose
classification fields sit exactly at the documented capacities (10
methods, a 500-character ASCII summary, 5 domains of 100 ASCII characters)
serializes to 1,168 bytes — already past the 1,148-byte budget, because
`LEN` omits the per-domain length prefixes — and a 500-character summary
of 3-byte characters pushes the payload to 1,638 bytes, because the
truncation counts characters while the budget is in bytes. -/
theorem serialized_size_varies_and_exceeds_budget :
    DrainerReport.LEN = 1156
    ∧ serializedSize (zeroedAccount.init ⟨1⟩ ⟨2⟩ none ⟨5⟩) = 138
    ∧ serializedSize (updateAiMetadataHandler (zeroedAccount.init ⟨1⟩ ⟨2⟩ none ⟨5⟩) 0
        (List.replicate 10 1) (List.replicate 500 97) (List.replicate 5 (List.replicate 100 97)) 90)
        = 1168
    ∧ serializedSize (updateAiMetadataHandler (zeroedAccount.init ⟨1⟩ ⟨2⟩ none ⟨5⟩) 0
        [] (List.replicate 500 20013) [] 0) = 1638
    ∧ 1148 < 1168 := by
  refine ⟨rfl, rfl, ?_, ?_, by omega⟩ <;> rfl

/-- C6 (confirmed): the reporter ring has exactly 2 slots in every state,
and after accepted reports from identities r1, r2, r3 in that order on a
fresh address the ring is [r3, r2], with r1 evicted. -/
theorem recent_reporters_capacity_and_eviction :
    (∀ rec : DrainerReport, (recentReportersList rec).length = 2)
    ∧ (∀ (r1 r2 r3 addr : Pubkey) (c1 c2 c3 : Clock),
        (submitAll zeroedAccount addr
            [⟨r1, none, c1⟩, ⟨r2, none, c2⟩, ⟨r3, none, c3⟩]).map recentReportersList
          = some [r3, r2]) :=
  ⟨fun _ => rfl, fun _ _ _ _ _ _ _ => rfl⟩

/-- C7 (confirmed): `update_ai_metadata` bounds every input by truncation
or clamping, never rejection: the stored summary is exactly the first 500
characters of the input (character-count truncation — when the byte
length is within the limit the character count is too, so `take 500` is
exact in every case), the stored methods are the first 10, the stored
domains are the first 5 with each domain independently cut to its first
100 characters, and the stored confidence is the input clamped to
[0, 100]. -/
theorem classification_truncation (rec : DrainerReport) (category : AttackCategory)
    (methods : List Nat) (summary : RustString) (domains : List RustString) (confidence : Nat) :
    (rec.update_ai_metadata category methods summary domains confidence).ai_summary
        = summary.take 500
    ∧ (rec.update_ai_metadata category methods summary domains confidence).attack_methods
        = methods.take 10
    ∧ (rec.update_ai_metadata category methods summary domains confidence).key_domains
        = (domains.take 5).map (fun d => d.take 100)
    ∧ (rec.update_ai_metadata category methods summary domains confidence).ai_confidence
        = min confidence 100 := by
  simp [DrainerReport.update_ai_metadata, byte_guarded_take]

/-- C8 (confirmed): a classification update through the instruction
handler never changes `report_count`, `first_seen`, `last_seen`,
`total_sol_reported`, `recent_reporters`, or the reported address — it is
field-disjoint from the report-aggregation transition. -/
theorem classification_update_frame (rec : DrainerReport) (category : Nat)
    (methods : List Nat) (summary : RustString) (domains : List RustString) (confidence : Nat) :
    (updateAiMetadataHandler rec category methods summary domains confidence).report_count
        = rec.report_count
    ∧ (updateAiMetadataHandler rec category methods summary domains confidence).first_seen
        = rec.first_seen
    ∧ (updateAiMetadataHandler rec category methods summary domains confidence).last_seen
        = rec.last_seen
    ∧ (updateAiMetadataHandler rec category methods summary domains confidence).total_sol_reported
        = rec.total_sol_reported
    ∧ (updateAiMetadataHandler rec category methods summary domains confidence).recent_reporters
        = rec.recent_reporters
    ∧ (updateAiMetadataHandler rec category methods summary domains confidence).drainer_address
        = rec.drainer_address :=
  ⟨rfl, rfl, rfl, rfl, rfl, rfl⟩

/-- C10 (confirmed): every classification update replaces all five
classification fields wholesale with the decoded, truncated and clamped
inputs, so the stored classification never depends on the record's prior
classification content; in particular empty method, summary and domain
inputs erase what was stored before, and an unrecognized category code
overwrites the stored category with `Unknown`. -/
theorem classification_wholesale_replacement (rec1 rec2 : DrainerReport) (category : Nat)
    (methods : List Nat) (summary : RustString) (domains : List RustString) (confidence : Nat) :
    ((updateAiMetadataHandler rec1 category methods summary domains confidence).attack_category
        = (updateAiMetadataHandler rec2 category methods summary domains confidence).attack_category
      ∧ (updateAiMetadataHandler rec1 category methods summary domains confidence).attack_methods
        = (updateAiMetadataHandler rec2 category methods summary domains confidence).attack_methods
      ∧ (updateAiMetadataHandler rec1 category methods summary domains confidence).ai_summary
        = (updateAiMetadataHandler rec2 category methods summary domains confidence).ai_summary
      ∧ (updateAiMetadataHandler rec1 category methods summary domains confidence).key_domains
        = (updateAiMetadataHandler rec2 category methods summary domains confidence).key_domains
      ∧ (updateAiMetadataHandler rec1 category methods summary domains confidence).ai_confidence
        = (updateAiMetadataHandler rec2 category methods summary domains confidence).ai_confidence)
    ∧ (updateAiMetadataHandler rec1 category [] [] [] confidence).attack_methods = []
    ∧ (updateAiMetadataHandler rec1 category [] [] [] confidence).ai_summary = []
    ∧ (updateAiMetadataHandler rec1 category [] [] [] confidence).key_domains = []
    ∧ (updateAiMetadataHandler rec1 255 methods summary domains confidence).attack_category
        = AttackCategory.Unknown :=
  ⟨⟨rfl, rfl, rfl, rfl, rfl⟩, rfl, rfl, rfl, rfl⟩

/-- On a record that already exists (`report_count ≥ 1`), an accepted
report sequence adds exactly its length to the report count. -/
theorem submitAll_report_count (addr : Pubkey) :
    ∀ (rs : List ReportInput) (rec rec' : DrainerReport), 1 ≤ rec.report_count →
      submitAll rec addr rs = some rec' → rec'.report_count = rec.report_count + rs.length := by
  intro rs
  induction rs with
  | nil =>
    intro rec rec' h1 h2
    simp only [submitAll, Option.some.injEq] at h2
    simp [← h2]
  | cons inp rest ih =>
    intro rec rec' h1 h2
    simp only [submitAll, submit_report] at h2
    rw [if_neg (by omega)] at h2
    rcases hsr : rec.add_report inp.reporter inp.amount_stolen inp.clock with ⟨rec2, e⟩
    rw [hsr] at h2
    cases e with
    | some err => simp at h2
    | none =>
      have hfst : (rec.add_report inp.reporter inp.amount_stolen inp.clock).1 = rec2 := by
        rw [hsr]
      have hfields := add_report_none_fields rec inp.reporter inp.amount_stolen inp.clock
        (by rw [hsr])
      rw [hfst] at hfields
      simp only at h2
      have := ih rec2 rec' (by omega) h2
      simp only [List.length_cons]
      omega

/-- On a record that already exists, an accepted report sequence adds
exactly the sum of the present claimed amounts to the accumulator. -/
theorem submitAll_total (addr : Pubkey) :
    ∀ (rs : List ReportInput) (rec rec' : DrainerReport), 1 ≤ rec.report_count →
      submitAll rec addr rs = some rec' →
      rec'.total_sol_reported
        = rec.total_sol_reported + (rs.filterMap ReportInput.amount_stolen).sum := by
  intro rs
  induction rs with
  | nil =>
    intro rec rec' h1 h2
    simp only [submitAll, Option.some.injEq] at h2
    simp [← h2]
  | cons inp rest ih =>
    intro rec rec' h1 h2
    simp only [submitAll, submit_report] at h2
    rw [if_neg (by omega)] at h2
    rcases hsr : rec.add_report inp.reporter inp.amount_stolen inp.clock with ⟨rec2, e⟩
    rw [hsr] at h2
    cases e with
    | some err => simp at h2
    | none =>
      have hfst : (rec.add_report inp.reporter inp.amount_stolen inp.clock).1 = rec2 := by
        rw [hsr]
      have hfields := add_report_none_fields rec inp.reporter inp.amount_stolen inp.clock
        (by rw [hsr])
      rw [hfst] at hfields
      simp only at h2
      have hcount : rec2.report_count = rec.report_count + 1 := hfields.1
      have htot : rec2.total_sol_reported
          = rec.total_sol_reported + inp.amount_stolen.getD 0 := hfields.2.2.2.1
      have := ih rec2 rec' (by omega) h2
      rw [this, htot]
      cases hamt : inp.amount_stolen with
      | none => simp [List.filterMap_cons, hamt]
      | some a => simp [List.filterMap_cons, hamt]; omega

/-- The specification ring over a list extended by one reporter: the new
reporter takes the front slot and the previous front shifts back. -/
theorem ringSpec_cons (r : Pubkey) (l : List Pubkey) :
    ringSpec (r :: l) = (r, (ringSpec l).1) := rfl

/-- On a record that already exists whose ring matches the specification
ring of the reversed prior reporter list, an accepted report sequence
keeps the ring matching the specification ring. -/
theorem submitAll_ring (addr : Pubkey) :
    ∀ (rs : List ReportInput) (rec rec' : DrainerReport) (accRev : List Pubkey),
      1 ≤ rec.report_count →
      rec.recent_reporters = ringSpec accRev →
      submitAll rec addr rs = some rec' →
      rec'.recent_reporters = ringSpec ((rs.map ReportInput.reporter).reverse ++ accRev) := by
  intro rs
  induction rs with
  | nil =>
    intro rec rec' accRev h1 hacc h2
    simp only [submitAll, Option.some.injEq] at h2
    simp [← h2, hacc]
  | cons inp rest ih =>
    intro rec rec' accRev h1 hacc h2
    simp only [submitAll, submit_report] at h2
    rw [if_neg (by omega)] at h2
    rcases hsr : rec.add_report inp.reporter inp.amount_stolen inp.clock with ⟨rec2, e⟩
    rw [hsr] at h2
    cases e with
    | some err => simp at h2
    | none =>
      have hfst : (rec.add_report inp.reporter inp.amount_stolen inp.clock).1 = rec2 := by
        rw [hsr]
      have hfields := add_report_none_fields rec inp.reporter inp.amount_stolen inp.clock
        (by rw [hsr])
      rw [hfst] at hfields
      simp only at h2
      have hring : rec2.recent_reporters = ringSpec (inp.reporter :: accRev) := by
        rw [hfields.2.2.2.2.1, ringSpec_cons, hacc]
      have := ih rec2 rec' (inp.reporter :: accRev) (by omega) hring h2
      rw [this]
      simp [List.append_assoc]

/-- A record whose report count sits at the `u32` maximum and whose
accumulator sits at the `u64` maximum; reachable in principle by
4,294,967,294 accepted follow-up reports whose amounts sum to the
maximum. -/
def maxCountRecord : DrainerReport :=
  { zeroedAccount with report_count := U32_MAX, total_sol_reported := U64_MAX }

/-- A mid-life record whose accumulator sits at the `u64` maximum, so that
the next claimed amount overflows. -/
def fullAccumulatorRecord : DrainerReport :=
  { zeroedAccount with
    report_count := 5, first_seen := 50, last_seen := 100, total_sol_reported := U64_MAX }

/-- C5 (confirmed): initialization sets the report count to 1, every
accepted report sequence of length N on a fresh address leaves the count
at exactly N, and an increment past the `u32` range fails with
`ReportCountOverflow` leaving the record untouched rather than
wrapping. -/
theorem report_count_exact :
    (∀ (rec : DrainerReport) (a r : Pubkey) (amt : Option Nat) (c : Clock),
        (rec.init a r amt c).report_count = 1)
    ∧ (∀ (addr : Pubkey) (rs : List ReportInput) (rec' : DrainerReport),
        submitAll zeroedAccount addr rs = some rec' → rec'.report_count = rs.length)
    ∧ (∀ (rec : DrainerReport) (r : Pubkey) (amt : Option Nat) (c : Clock),
        U32_MAX ≤ rec.report_count →
        rec.add_report r amt c = (rec, some DrainerRegistryError.ReportCountOverflow)) := by
  refine ⟨fun _ _ _ _ _ => rfl, ?_, ?_⟩
  · intro addr rs rec' h
    cases rs with
    | nil =>
      simp only [submitAll, Option.some.injEq] at h
      simp [← h, zeroedAccount]
    | cons inp rest =>
      have hstep : submit_report zeroedAccount addr inp
          = (zeroedAccount.init addr inp.reporter inp.amount_stolen inp.clock, none) := rfl
      simp only [submitAll, hstep] at h
      have hinit : (zeroedAccount.init addr inp.reporter inp.amount_stolen inp.clock).report_count
          = 1 := rfl
      have := submitAll_report_count addr rest
        (zeroedAccount.init addr inp.reporter inp.amount_stolen inp.clock) rec'
        (by rw [hinit]) h
      rw [hinit] at this
      simp only [List.length_cons]
      omega
  · intro rec r amt c h
    unfold DrainerReport.add_report checked_add_u32
    rw [if_neg (by omega)]

/-- Witness for C5 at concrete inputs: a fresh address receiving two
accepted reports ends with count 2, and a record at the `u32` maximum is
rejected unchanged. -/
theorem report_count_exact_witness :
    ((submitAll zeroedAccount ⟨1⟩
        [⟨⟨2⟩, none, ⟨5⟩⟩, ⟨⟨3⟩, some 7, ⟨6⟩⟩]).getD zeroedAccount).report_count
      = ([⟨⟨2⟩, none, ⟨5⟩⟩, ⟨⟨3⟩, some 7, ⟨6⟩⟩] : List ReportInput).length
    ∧ maxCountRecord.add_report ⟨4⟩ none ⟨9⟩
      = (maxCountRecord, some DrainerRegistryError.ReportCountOverflow) :=
  ⟨report_count_exact.2.1 ⟨1⟩ _ _ (by decide),
   report_count_exact.2.2 maxCountRecord ⟨4⟩ none ⟨9⟩ (by decide)⟩

/-- C4 counterexample: on a record whose count and accumulator both sit at
their maxima, a call whose claimed amount would overflow the `u64`
accumulator is rejected with `ReportCountOverflow`, not `AmountOverflow`
— the count check runs first, so the claim's promised error code is not
what the code returns at this input. -/
theorem amount_overflow_error_precedence_cex :
    U64_MAX < maxCountRecord.total_sol_reported + 1
    ∧ (maxCountRecord.add_report ⟨9⟩ (some 1) ⟨50⟩).2
        = some DrainerRegistryError.ReportCountOverflow
    ∧ (maxCountRecord.add_report ⟨9⟩ (some 1) ⟨50⟩).2
        ≠ some DrainerRegistryError.AmountOverflow := by
  exact ⟨by decide, by decide, by decide⟩

/-- C4 amended (proved): on a fresh address the accumulator after any
accepted report sequence equals the exact sum of the present claimed
amounts; a call whose `u64` addition would overflow is rejected with
`AmountOverflow` — provided the report-count increment itself fits, since
that check runs first — and the accumulator is unchanged from before the
call; when the count increment also overflows the call is rejected with
`ReportCountOverflow`, again leaving the accumulator unchanged. -/
theorem total_sol_reported_tracking :
    (∀ (addr : Pubkey) (rs : List ReportInput) (rec' : DrainerReport),
        submitAll zeroedAccount addr rs = some rec' →
        rec'.total_sol_reported = (rs.filterMap ReportInput.amount_stolen).sum)
    ∧ (∀ (rec : DrainerReport) (r : Pubkey) (a : Nat) (c : Clock),
        rec.report_count + 1 ≤ U32_MAX → U64_MAX < rec.total_sol_reported + a →
        (rec.add_report r (some a) c).2 = some DrainerRegistryError.AmountOverflow
        ∧ (rec.add_report r (some a) c).1.total_sol_reported = rec.total_sol_reported)
    ∧ (∀ (rec : DrainerReport) (r : Pubkey) (amt : Option Nat) (c : Clock),
        U32_MAX < rec.report_count + 1 →
        (rec.add_report r amt c).2 = some DrainerRegistryError.ReportCountOverflow
        ∧ (rec.add_report r amt c).1.total_sol_reported = rec.total_sol_reported) := by
  refine ⟨?_, ?_, ?_⟩
  · intro addr rs rec' h
    cases rs with
    | nil =>
      simp only [submitAll, Option.some.injEq] at h
      simp [← h, zeroedAccount]
    | cons inp rest =>
      have hstep : submit_report zeroedAccount addr inp
          = (zeroedAccount.init addr inp.reporter inp.amount_stolen inp.clock, none) := rfl
      simp only [submitAll, hstep] at h
      have hinit : (zeroedAccount.init addr inp.reporter inp.amount_stolen inp.clock).report_count
          = 1 := rfl
      have htot : (zeroedAccount.init addr inp.reporter inp.amount_stolen inp.clock).total_sol_reported
          = inp.amount_stolen.getD 0 := rfl
      have := submitAll_total addr rest
        (zeroedAccount.init addr inp.reporter inp.amount_stolen inp.clock) rec'
        (by rw [hinit]) h
      rw [htot] at this
      rw [this]
      cases hamt : inp.amount_stolen with
      | none => simp [List.filterMap_cons, hamt]
      | some a => simp [List.filterMap_cons, hamt]
  · intro rec r a c h1 h2
    have h2' : ¬ (rec.total_sol_reported + a ≤ U64_MAX) := by omega
    unfold DrainerReport.add_report checked_add_u32 checked_add_u64
    simp only [if_pos h1]
    simp only [if_neg h2']
    exact ⟨trivial, trivial⟩
  · intro rec r amt c h1
    unfold DrainerReport.add_report checked_add_u32
    rw [if_neg (by omega)]
    exact ⟨rfl, rfl⟩

/-- Witness for the amended C4 at concrete inputs: a fresh address
receiving amounts 10, (absent), 7 accumulates exactly 17; a mid-life
record at the `u64` maximum rejects one more lamport with
`AmountOverflow` and an unchanged accumulator; a record at the `u32`
count maximum rejects with `ReportCountOverflow` and an unchanged
accumulator. -/
theorem total_sol_reported_tracking_witness :
    ((submitAll zeroedAccount ⟨1⟩
        [⟨⟨2⟩, some 10, ⟨5⟩⟩, ⟨⟨3⟩, none, ⟨6⟩⟩, ⟨⟨4⟩, some 7, ⟨7⟩⟩]).getD zeroedAccount).total_sol_reported
      = (([⟨⟨2⟩, some 10, ⟨5⟩⟩, ⟨⟨3⟩, none, ⟨6⟩⟩, ⟨⟨4⟩, some 7, ⟨7⟩⟩] : List ReportInput).filterMap
          ReportInput.amount_stolen).sum
    ∧ ((fullAccumulatorRecord.add_report ⟨9⟩ (some 1) ⟨200⟩).2
          = some DrainerRegistryError.AmountOverflow
        ∧ (fullAccumulatorRecord.add_report ⟨9⟩ (some 1) ⟨200⟩).1.total_sol_reported
          = fullAccumulatorRecord.total_sol_reported)
    ∧ ((maxCountRecord.add_report ⟨9⟩ none ⟨50⟩).2
          = some DrainerRegistryError.ReportCountOverflow
        ∧ (maxCountRecord.add_report ⟨9⟩ none ⟨50⟩).1.total_sol_reported
          = maxCountRecord.total_sol_reported) :=
  ⟨total_sol_reported_tracking.1 ⟨1⟩ _ _ (by decide),
   total_sol_reported_tracking.2.1 fullAccumulatorRecord ⟨9⟩ 1 ⟨200⟩ (by decide) (by decide),
   total_sol_reported_tracking.2.2 maxCountRecord ⟨9⟩ none ⟨50⟩ (by decide)⟩

/-- C3 counterexample: two accepted reports from the same identity on a
fresh address leave both occupied ring slots holding that one identity —
the code performs no deduplication, so the slots are not distinct. -/
theorem recent_reporters_duplicate_cex :
    (submitAll zeroedAccount ⟨1⟩
        [⟨⟨7⟩, none, ⟨5⟩⟩, ⟨⟨7⟩, none, ⟨6⟩⟩]).map (fun r => r.recent_reporters)
      = some (⟨7⟩, ⟨7⟩)
    ∧ (⟨7⟩ : Pubkey) ≠ Pubkey.default := by
  exact ⟨by decide, by decide⟩

/-- C3 amended (proved): after any accepted report sequence on a fresh
address the ring holds the 2 most recent submission identities —
most-recent first, repeats included when the same identity reports twice
in a row — with the sentinel empty identity in unused slots. -/
theorem recent_reporters_ring (addr : Pubkey) (rs : List ReportInput) (rec' : DrainerReport)
    (h : submitAll zeroedAccount addr rs = some rec') :
    rec'.recent_reporters = ringSpec ((rs.map ReportInput.reporter).reverse) := by
  cases rs with
  | nil =>
    simp only [submitAll, Option.some.injEq] at h
    rw [← h]
    rfl
  | cons inp rest =>
    have hstep : submit_report zeroedAccount addr inp
        = (zeroedAccount.init addr inp.reporter inp.amount_stolen inp.clock, none) := rfl
    simp only [submitAll, hstep] at h
    have hinit : (zeroedAccount.init addr inp.reporter inp.amount_stolen inp.clock).report_count
        = 1 := rfl
    have hring : (zeroedAccount.init addr inp.reporter inp.amount_stolen inp.clock).recent_reporters
        = ringSpec [inp.reporter] := rfl
    have := submitAll_ring addr rest
      (zeroedAccount.init addr inp.reporter inp.amount_stolen inp.clock) rec'
      [inp.reporter] (by rw [hinit]) hring h
    rw [this]
    simp

/-- Witness for the amended C3 at concrete inputs: two accepted reports
from distinct identities leave the ring matching the specification ring
of the reversed reporter list. -/
theorem recent_reporters_ring_witness :
    ((submitAll zeroedAccount ⟨1⟩
        [⟨⟨2⟩, none, ⟨5⟩⟩, ⟨⟨3⟩, none, ⟨6⟩⟩]).getD zeroedAccount).recent_reporters
      = ringSpec ((([⟨⟨2⟩, none, ⟨5⟩⟩, ⟨⟨3⟩, none, ⟨6⟩⟩] : List ReportInput).map
          ReportInput.reporter).reverse) :=
  recent_reporters_ring ⟨1⟩ _ _ (by decide)

/-- C1 counterexample: a call on a mid-life record whose accumulator sits
at the `u64` maximum fails with `AmountOverflow`, yet the record the call
hands back is not the pre-call record: `report_count` was already
incremented (5 to 6) and `last_seen` already overwritten (100 to 200)
before the failing amount check ran. -/
theorem add_report_partial_write_cex :
    (fullAccumulatorRecord.add_report ⟨9⟩ (some 1) ⟨200⟩).2
        = some DrainerRegistryError.AmountOverflow
    ∧ (fullAccumulatorRecord.add_report ⟨9⟩ (some 1) ⟨200⟩).1.report_count = 6
    ∧ (fullAccumulatorRecord.add_report ⟨9⟩ (some 1) ⟨200⟩).1.last_seen = 200
    ∧ (fullAccumulatorRecord.add_report ⟨9⟩ (some 1) ⟨200⟩).1 ≠ fullAccumulatorRecord := by
  exact ⟨by decide, by decide, by decide, by decide⟩

/-- C1 amended (proved): a `ReportCountOverflow` failure does return the
record unchanged in every field; an `AmountOverflow` failure returns the
record with `total_sol_reported`, `recent_reporters` and all other fields
unchanged except that `report_count` has been incremented and `last_seen`
overwritten with the call's clock reading — the partial updates the Rust
method made before its early return.  (On chain these are discarded
because the runtime rolls back a failed transaction, which is an
external-environment guarantee rather than a property of this
function.) -/
theorem add_report_error_frame (rec : DrainerReport) (r : Pubkey) (amt : Option Nat) (c : Clock) :
    ((rec.add_report r amt c).2 = some DrainerRegistryError.ReportCountOverflow →
      (rec.add_report r amt c).1 = rec)
    ∧ ((rec.add_report r amt c).2 = some DrainerRegistryError.AmountOverflow →
      (rec.add_report r amt c).1
        = { rec with report_count := rec.report_count + 1, last_seen := c.unix_timestamp }) := by
  unfold DrainerReport.add_report checked_add_u32 checked_add_u64
  by_cases h1 : rec.report_count + 1 ≤ U32_MAX
  · simp only [if_pos h1]
    cases amt with
    | none => simp
    | some a =>
      by_cases h2 : rec.total_sol_reported + a ≤ U64_MAX
      · simp only [if_pos h2]
        simp
      · simp only [if_neg h2]
        exact ⟨fun hcontra => absurd hcontra (by simp), fun _ => trivial⟩
  · simp only [if_neg h1]
    exact ⟨fun _ => trivial, fun hcontra => absurd hcontra (by simp)⟩

/-- Witness for the amended C1 at concrete inputs: the two error paths
observed on concrete records — unchanged on `ReportCountOverflow`,
count and timestamp already advanced on `AmountOverflow`. -/
theorem add_report_error_frame_witness :
    (maxCountRecord.add_report ⟨4⟩ none ⟨9⟩).1 = maxCountRecord
    ∧ (fullAccumulatorRecord.add_report ⟨9⟩ (some 1) ⟨200⟩).1
        = { fullAccumulatorRecord with
            report_count := fullAccumulatorRecord.report_count + 1, last_seen := 200 } :=
  ⟨(add_report_error_frame maxCountRecord ⟨4⟩ none ⟨9⟩).1 (by decide),
   (add_report_error_frame fullAccumulatorRecord ⟨9⟩ (some 1) ⟨200⟩).2 (by decide)⟩

/-- Invariant carrier for the timestamp ordering: starting from a record
whose `first_seen` does not exceed its `last_seen`, and whose `last_seen`
chains below the upcoming report clock readings (the chain anchored at
`last_seen` is only needed once a record exists), every accepted
operation sequence preserves `first_seen ≤ last_seen`. -/
theorem runOps_first_le_last_aux (addr : Pubkey) :
    ∀ (ops : List Operation) (rec rec' : DrainerReport),
      rec.first_seen ≤ rec.last_seen →
      (rec.report_count ≠ 0 →
        List.Chain' (· ≤ ·) (rec.last_seen :: reportTimestamps ops)) →
      (rec.report_count = 0 → List.Chain' (· ≤ ·) (reportTimestamps ops)) →
      runOps rec addr ops = some rec' → rec'.first_seen ≤ rec'.last_seen := by
  intro ops
  induction ops with
  | nil =>
    intro rec rec' hfl _ _ h
    simp only [runOps, Option.some.injEq] at h
    rw [← h]
    exact hfl
  | cons op rest ih =>
    intro rec rec' hfl hchain1 hchain0 h
    cases op with
    | updateMeta category methods summary domains confidence =>
      simp only [runOps, applyOp] at h
      exact ih (updateAiMetadataHandler rec category methods summary domains confidence) rec'
        hfl (fun hne => hchain1 hne) (fun h0 => hchain0 h0) h
    | report inp =>
      simp only [runOps, applyOp, submit_report] at h
      by_cases hz : rec.report_count = 0
      · rw [if_pos hz] at h
        simp only at h
        refine ih _ rec' (le_refl _) ?_ ?_ h
        · intro _
          exact hchain0 hz
        · intro h0
          exact absurd h0 one_ne_zero
      · rw [if_neg hz] at h
        rcases hsr : rec.add_report inp.reporter inp.amount_stolen inp.clock with ⟨rec2, e⟩
        rw [hsr] at h
        cases e with
        | some err => simp at h
        | none =>
          have hfst : (rec.add_report inp.reporter inp.amount_stolen inp.clock).1 = rec2 := by
            rw [hsr]
          have hfields := add_report_none_fields rec inp.reporter inp.amount_stolen inp.clock
            (by rw [hsr])
          rw [hfst] at hfields
          obtain ⟨hc, hl, hf, ht, hr, ha⟩ := hfields
          simp only at h
          have hchain : rec.last_seen ≤ inp.clock.unix_timestamp
              ∧ List.Chain' (· ≤ ·) (inp.clock.unix_timestamp :: reportTimestamps rest) :=
            List.chain'_cons.mp (hchain1 hz)
          refine ih rec2 rec' ?_ ?_ ?_ h
          · rw [hf, hl]
            exact le_trans hfl hchain.1
          · intro _
            rw [hl]
            exact hchain.2
          · intro h0
            rw [hc] at h0
            omega

/-- C9 (confirmed): with the clock readings of the accepted report
operations non-decreasing — the spec's "monotonic-enough" external
timestamp assumption — every record reachable from a fresh address by
accepted operations (reports and classification updates interleaved)
satisfies `first_seen ≤ last_seen`. -/
theorem first_seen_le_last_seen (addr : Pubkey) (ops : List Operation) (rec' : DrainerReport)
    (hmono : List.Chain' (· ≤ ·) (reportTimestamps ops))
    (hrun : runOps zeroedAccount addr ops = some rec') :
    rec'.first_seen ≤ rec'.last_seen :=
  runOps_first_le_last_aux addr ops zeroedAccount rec' (le_refl 0)
    (fun h0 => absurd rfl h0) (fun _ => hmono) hrun

/-- A concrete mixed operation sequence: reports at times 5 and 9 with a
classification update between them. -/
def monotoneOps : List Operation :=
  [Operation.report ⟨⟨2⟩, some 3, ⟨5⟩⟩, Operation.updateMeta 1 [2] [97] [[98]] 80,
   Operation.report ⟨⟨3⟩, none, ⟨9⟩⟩]

/-- Witness for C9 at concrete inputs: two reports at times 5 and 9 with a
classification update between them give a record with
`first_seen = 5 ≤ 9 = last_seen`. -/
theorem first_seen_le_last_seen_witness :
    ((runOps zeroedAccount ⟨1⟩ monotoneOps).getD zeroedAccount).first_seen
      ≤ ((runOps zeroedAccount ⟨1⟩ monotoneOps).getD zeroedAccount).last_seen :=
  first_seen_le_last_seen ⟨1⟩ monotoneOps _
    (by simp [monotoneOps, reportTimestamps]) (by decide)
